import Mathlib

/-!
Verification of the pandora storage layer (`src/pandora/storage_client.py`)
against its natural-language specification.

The store is a shallow embedding of the key-value database the code talks
to: hashes (key to field map), unordered sets (key to member list) and
score-ordered sets (key to member/score pairs).  All accessor definitions
below are direct translations of the methods of `Storage`; Python dict
access `d[k]` that can raise `KeyError`, and timestamp parsing that can
raise `ValueError`, are rendered in the `Except String` monad.  Writes
always follow every possibly-failing step in the Python source, so an
`Except.error` result coincides with an unchanged store.
-/

namespace Pandora

/-- A record: an ordered field map, as redis hashes / Python dicts are
(string field names to string values).  First binding of a key wins on
lookup; well-formed redis states have no duplicate field names. -/
abbrev Record := List (String × String)

/-- Lookup in an association list (first matching key). -/
def rget {α : Type} : List (String × α) → String → Option α
  | [], _ => none
  | (k, v) :: rest, key => if key = k then some v else rget rest key

/-- Set a key in an association list, replacing the first existing binding
in place, else appending. -/
def assocSet {α : Type} : List (String × α) → String → α → List (String × α)
  | [], k, v => [(k, v)]
  | (k', v') :: rest, k, v =>
    if k' = k then (k, v) :: rest else (k', v') :: assocSet rest k v

/-- The state of the backing store: hashes, sets, sorted sets, and the
time-to-live bookkeeping set by EXPIRE.  Scores are epoch seconds. -/
structure RedisState where
  hashes : List (String × Record)
  sets : List (String × List String)
  zsets : List (String × List (String × Int))
  ttls : List (String × Int)
deriving Repr, DecidableEq

/-- The store with no keys at all. -/
def emptyState : RedisState := ⟨[], [], [], []⟩

/-- Configuration values this layer consumes (from the external
configuration provider): the session TTL in seconds. -/
structure Config where
  session_expire : Int

/-- HGETALL: the field map at a hash key, empty when the key is absent. -/
def hgetall (s : RedisState) (key : String) : Record :=
  (rget s.hashes key).getD []

/-- Apply a list of field updates to a record, in order (later duplicate
fields win, as in a Python dict literal shown to HMSET). -/
def applyFields (r0 : Record) (fields : Record) : Record :=
  fields.foldl (fun r kv => assocSet r kv.1 kv.2) r0

/-- HMSET: set the given fields of a hash, leaving other fields intact. -/
def hmset (s : RedisState) (key : String) (fields : Record) : RedisState :=
  { s with hashes := assocSet s.hashes key (applyFields (hgetall s key) fields) }

/-- HSET of a single field. -/
def hset (s : RedisState) (key field value : String) : RedisState :=
  hmset s key [(field, value)]

/-- HDEL: remove one field of a hash (every binding of that field name). -/
def hdel (s : RedisState) (key field : String) : RedisState :=
  { s with hashes := assocSet s.hashes key ((hgetall s key).filter (fun kv => kv.1 != field)) }

/-- HEXISTS. -/
def hexists (s : RedisState) (key field : String) : Bool :=
  (rget (hgetall s key) field).isSome

/-- SMEMBERS: the members of a set key, empty when absent. -/
def smembers (s : RedisState) (key : String) : List String :=
  (rget s.sets key).getD []

/-- SADD of one member. -/
def sadd (s : RedisState) (key member : String) : RedisState :=
  let ms := smembers s key
  { s with sets := assocSet s.sets key (if member ∈ ms then ms else ms ++ [member]) }

/-- SREM of a batch of members. -/
def srem (s : RedisState) (key : String) (members : List String) : RedisState :=
  { s with sets := assocSet s.sets key ((smembers s key).filter (fun m => !(members.contains m))) }

/-- EXPIRE: record a TTL for a key. -/
def expire (s : RedisState) (key : String) (seconds : Int) : RedisState :=
  { s with ttls := assocSet s.ttls key seconds }

/-- DEL of a batch of keys, whatever their type. -/
def redisDel (s : RedisState) (keys : List String) : RedisState :=
  { hashes := s.hashes.filter (fun kv => !(keys.contains kv.1))
    sets := s.sets.filter (fun kv => !(keys.contains kv.1))
    zsets := s.zsets.filter (fun kv => !(keys.contains kv.1))
    ttls := s.ttls.filter (fun kv => !(keys.contains kv.1)) }

/-- The member/score pairs of a sorted-set key. -/
def zmembers (s : RedisState) (key : String) : List (String × Int) :=
  (rget s.zsets key).getD []

/-- ZADD of one member with its score (updates the score when present). -/
def zadd (s : RedisState) (key member : String) (score : Int) : RedisState :=
  { s with zsets := assocSet s.zsets key (assocSet (zmembers s key) member score) }

/-- A score range bound as redis accepts it: minus infinity, plus
infinity, or an inclusive numeric bound. -/
inductive ZBound
  | negInf
  | posInf
  | incl (score : Int)
deriving Repr, DecidableEq

/-- Does a score satisfy a lower bound. -/
def ZBound.minLe : ZBound → Int → Bool
  | .negInf, _ => true
  | .posInf, _ => false
  | .incl a, x => decide (a ≤ x)

/-- Does a score satisfy an upper bound. -/
def ZBound.maxGe : ZBound → Int → Bool
  | .negInf, _ => false
  | .posInf, _ => true
  | .incl b, x => decide (x ≤ b)

/-- The entries of a sorted set whose score lies within the bounds. -/
def zrange (s : RedisState) (key : String) (mn mx : ZBound) : List (String × Int) :=
  (zmembers s key).filter (fun e => mn.minLe e.2 && mx.maxGe e.2)

/-- Lexicographic comparison of character lists by code point, the
comparison Python uses on `str` values (less-or-equal). -/
def strLeB : List Char → List Char → Bool
  | [], _ => true
  | _ :: _, [] => false
  | c :: cs, d :: ds => if c < d then true else if d < c then false else strLeB cs ds

/-- Python string less-or-equal, as a proposition. -/
def strAsc (a b : String) : Prop :=
  strLeB a.data b.data = true

instance : DecidableRel strAsc := fun a b =>
  inferInstanceAs (Decidable (strLeB a.data b.data = true))

theorem strLeB_total : ∀ a b : List Char, strLeB a b = true ∨ strLeB b a = true
  | [], _ => Or.inl rfl
  | _ :: _, [] => Or.inr rfl
  | c :: cs, d :: ds => by
    by_cases h1 : c < d
    · left
      simp [strLeB, h1]
    · by_cases h2 : d < c
      · right
        simp [strLeB, h2]
      · rcases strLeB_total cs ds with h | h
        · left
          simp [strLeB, h1, h2, h]
        · right
          simp [strLeB, h1, h2, h]

theorem strLeB_trans :
    ∀ a b c : List Char, strLeB a b = true → strLeB b c = true → strLeB a c = true
  | [], _, _, _, _ => rfl
  | _ :: _, [], _, hab, _ => by simp [strLeB] at hab
  | _ :: _, _ :: _, [], _, hbc => by simp [strLeB] at hbc
  | x :: xs, y :: ys, z :: zs, hab, hbc => by
    by_cases hxy : x < y
    · by_cases hyz : y < z
      · simp [strLeB, lt_trans hxy hyz]
      · by_cases hzy : z < y
        · simp [strLeB, hyz, hzy] at hbc
        · have hyz' : y = z := le_antisymm (not_lt.mp hzy) (not_lt.mp hyz)
          simp [strLeB, hyz' ▸ hxy]
    · by_cases hyx : y < x
      · simp [strLeB, hxy, hyx] at hab
      · have hxy' : x = y := le_antisymm (not_lt.mp hyx) (not_lt.mp hxy)
        by_cases hyz : y < z
        · simp [strLeB, hxy' ▸ hyz]
        · by_cases hzy : z < y
          · simp [strLeB, hyz, hzy] at hbc
          · simp only [strLeB, if_neg hxy, if_neg hyx] at hab
            simp only [strLeB, if_neg hyz, if_neg hzy] at hbc
            have hxz : ¬ x < z := hxy' ▸ hyz
            have hzx : ¬ z < x := hxy' ▸ hzy
            simp only [strLeB, if_neg hxz, if_neg hzx]
            exact strLeB_trans xs ys zs hab hbc

instance : IsTotal String strAsc :=
  ⟨fun a b => strLeB_total a.data b.data⟩

instance : IsTrans String strAsc :=
  ⟨fun a b c => strLeB_trans a.data b.data c.data⟩

/-- The order ZREVRANGEBYSCORE returns entries in: score descending,
ties broken by member name descending. -/
def zrevOrder (a b : String × Int) : Prop :=
  b.2 < a.2 ∨ (b.2 = a.2 ∧ strAsc b.1 a.1)

instance : DecidableRel zrevOrder := fun a b =>
  inferInstanceAs (Decidable (b.2 < a.2 ∨ (b.2 = a.2 ∧ strAsc b.1 a.1)))

/-- ZREVRANGEBYSCORE: members in range, highest score first. -/
def zrevrangebyscore (s : RedisState) (key : String) (mn mx : ZBound) : List String :=
  (List.insertionSort zrevOrder (zrange s key mn mx)).map Prod.fst

/-- ZCOUNT: how many members have a score in range. -/
def zcount (s : RedisState) (key : String) (mn mx : ZBound) : Nat :=
  (zrange s key mn mx).length

/-- Python `d[k]` on a dict: the value, or a `KeyError`. -/
def pyGet (r : Record) (k : String) : Except String String :=
  match rget r k with
  | some v => .ok v
  | none => .error ("KeyError: " ++ k)

/-- The whitespace characters Python `str.strip()` removes (ASCII part). -/
def isPySpace (c : Char) : Bool :=
  c = ' ' || c = '\t' || c = '\n' || c = '\r' || c = '\x0b' || c = '\x0c'

/-- Python `str.strip()`: drop leading and trailing whitespace. -/
def pyStrip (s : String) : String :=
  ⟨((s.data.dropWhile isPySpace).reverse.dropWhile isPySpace).reverse⟩

/-- Python `str(x)` on an optional string, as an f-string renders it
(`None` when absent). -/
def pyStr : Option String → String
  | none => "None"
  | some s => s

/-- Sort descending by a string field, as Python
`list.sort(key=operator.itemgetter(k), reverse=True)`: the key function
runs on every element first (raising `KeyError` when the field is
missing), then a stable descending sort by string comparison. -/
def fieldD (r : Record) (k : String) : String :=
  (rget r k).getD ""

/-- The descending comparison used by `pySortByFieldDesc`. -/
def fieldLeDesc (k : String) (a b : Record) : Prop :=
  strAsc (fieldD b k) (fieldD a k)

instance (k : String) : DecidableRel (fieldLeDesc k) := fun a b =>
  inferInstanceAs (Decidable (strAsc (fieldD b k) (fieldD a k)))

instance (k : String) : IsTotal Record (fieldLeDesc k) :=
  ⟨fun a b => (total_of strAsc (fieldD b k) (fieldD a k)).imp id id⟩

instance (k : String) : IsTrans Record (fieldLeDesc k) :=
  ⟨fun _ _ _ hab hbc => Trans.trans (r := strAsc) hbc hab⟩

/-- Python `rs.sort(key=itemgetter(k), reverse=True)`. -/
def pySortByFieldDesc (k : String) (rs : List Record) : Except String (List Record) :=
  if rs.all (fun r => (rget r k).isSome) then
    .ok (List.insertionSort (fieldLeDesc k) rs)
  else .error ("KeyError: " ++ k)

/-! ### Timestamp parsing

Modelled from the Python standard library (external to this repository):
`datetime.fromisoformat(str).timestamp()`, restricted to the shape
`YYYY-MM-DD` optionally followed by a one-character separator and
`HH:MM` or `HH:MM:SS` (no fractional seconds, no UTC offsets), with the
naive datetime read as UTC.  The result is whole epoch seconds.  A string
outside this shape yields `none`, standing for `ValueError`. -/

/-- Numeric value of a list of decimal digit characters. -/
def digitsToNat (cs : List Char) : Nat :=
  cs.foldl (fun n c => 10 * n + (c.toNat - 48)) 0

/-- Gregorian leap year. -/
def isLeapYear (y : Nat) : Bool :=
  (y % 4 == 0 && y % 100 != 0) || y % 400 == 0

/-- Days in a month (1-12). -/
def monthLength (leap : Bool) : Nat → Nat
  | 1 => 31
  | 2 => if leap then 29 else 28
  | 3 => 31
  | 4 => 30
  | 5 => 31
  | 6 => 30
  | 7 => 31
  | 8 => 31
  | 9 => 30
  | 10 => 31
  | 11 => 30
  | 12 => 31
  | _ => 0

/-- Days in the year strictly before month `m`. -/
def daysBeforeMonth (leap : Bool) (m : Nat) : Nat :=
  (List.range (m - 1)).foldl (fun acc i => acc + monthLength leap (i + 1)) 0

/-- Days from 1970-01-01 to the given civil date (may be negative). -/
def daysSinceEpoch (y m d : Nat) : Int :=
  let rataDie : Nat :=
    365 * (y - 1) + (y - 1) / 4 - (y - 1) / 100 + (y - 1) / 400 +
      daysBeforeMonth (isLeapYear y) m + (d - 1)
  (rataDie : Int) - 719162

/-- Parse `HH:MM` or `HH:MM:SS` into seconds past midnight. -/
def parseTimePart : List Char → Option Nat
  | [h1, h2, ':', m1, m2] =>
    if [h1, h2, m1, m2].all Char.isDigit then
      let hh := digitsToNat [h1, h2]
      let mm := digitsToNat [m1, m2]
      if hh < 24 ∧ mm < 60 then some (hh * 3600 + mm * 60) else none
    else none
  | [h1, h2, ':', m1, m2, ':', s1, s2] =>
    if [h1, h2, m1, m2, s1, s2].all Char.isDigit then
      let hh := digitsToNat [h1, h2]
      let mm := digitsToNat [m1, m2]
      let ss := digitsToNat [s1, s2]
      if hh < 24 ∧ mm < 60 ∧ ss < 60 then some (hh * 3600 + mm * 60 + ss) else none
    else none
  | _ => none

/-- `datetime.fromisoformat(s).timestamp()` as described above. -/
def fromisoformat (s : String) : Option Int :=
  match s.data with
  | y1 :: y2 :: y3 :: y4 :: '-' :: mo1 :: mo2 :: '-' :: d1 :: d2 :: rest =>
    if [y1, y2, y3, y4, mo1, mo2, d1, d2].all Char.isDigit then
      let y := digitsToNat [y1, y2, y3, y4]
      let m := digitsToNat [mo1, mo2]
      let d := digitsToNat [d1, d2]
      if 1 ≤ y ∧ 1 ≤ m ∧ m ≤ 12 ∧ 1 ≤ d ∧ d ≤ monthLength (isLeapYear y) m then
        match rest with
        | [] => some (daysSinceEpoch y m d * 86400)
        | _ :: timeChars =>
          match parseTimePart timeChars with
          | some secs => some (daysSinceEpoch y m d * 86400 + secs)
          | none => none
      else none
    else none
  | _ => none

/-! ### The accessors of `Storage`, translated method by method. -/

/-- `Storage.get_user`. -/
def get_user (s : RedisState) (user_id : String) : Record :=
  hgetall s ("users:" ++ user_id)

/-- `Storage.set_user`. -/
def set_user (cfg : Config) (user : Record) (s : RedisState) : Except String RedisState :=
  match pyGet user "session_id" with
  | .error e => .error e
  | .ok sid =>
    let s1 := hmset s ("users:" ++ sid) user
    let s2 := expire s1 ("users:" ++ sid) cfg.session_expire
    .ok (sadd s2 "users" sid)

/-- The loop of `Storage.get_users`: split the membership set into the
records that still exist and the session ids whose record is gone. -/
def usersLoop (st : RedisState) : List String → List Record → List String →
    List Record × List String
  | [], users, to_pop => (users, to_pop)
  | sid :: rest, users, to_pop =>
    let user := hgetall st ("users:" ++ sid)
    if user ≠ [] then usersLoop st rest (users ++ [user]) to_pop
    else usersLoop st rest users (to_pop ++ [sid])

/-- `Storage.get_users`: prunes stale membership entries (the SREM happens
before the sort, so it persists even when the sort raises), then sorts
the surviving records by `last_seen` descending. -/
def get_users (s : RedisState) : RedisState × Except String (List Record) :=
  let acc := usersLoop s (smembers s "users") [] []
  let s' := if acc.2 ≠ [] then srem s "users" acc.2 else s
  (s', pySortByFieldDesc "last_seen" acc.1)

/-- `Storage.del_users`. -/
def del_users (s : RedisState) : RedisState :=
  redisDel s (((smembers s "users").map (fun key => "users:" ++ key)) ++ ["users"])

/-- `Storage.get_role`. -/
def get_role (s : RedisState) (role_name : String) : Record :=
  hgetall s ("roles:" ++ role_name)

/-- `Storage.get_roles`: role names sorted ascending, each resolved. -/
def get_roles (s : RedisState) : List Record :=
  (List.insertionSort strAsc (smembers s "roles")).map (get_role s)

/-- `Storage.set_role`. -/
def set_role (role : Record) (s : RedisState) : Except String RedisState :=
  match pyGet role "name" with
  | .error e => .error e
  | .ok n => .ok (sadd (hmset s ("roles:" ++ n) role) "roles" n)

/-- `Storage.has_roles`. -/
def has_roles (s : RedisState) : Bool :=
  !(smembers s "roles").isEmpty

/-- `Storage.set_observable`: parse the timestamp, build the composite
identifier, write the record, drop the legacy `warninglist` field when
present, index the identifier by timestamp. -/
def set_observable (obs : Record) (s : RedisState) : Except String RedisState :=
  match pyGet obs "last_seen" with
  | .error e => .error e
  | .ok lastSeen =>
    match fromisoformat lastSeen with
    | none => .error "ValueError: Invalid isoformat string"
    | some timestamp =>
      match pyGet obs "sha256" with
      | .error e => .error e
      | .ok sha =>
        match pyGet obs "observable_type" with
        | .error e => .error e
        | .ok ty =>
          let identifier := sha ++ "-" ++ ty
          let s1 := hmset s ("observables:" ++ identifier) obs
          let s2 := if hexists s1 ("observables:" ++ identifier) "warninglist"
                    then hdel s1 ("observables:" ++ identifier) "warninglist"
                    else s1
          .ok (zadd s2 "observables" identifier timestamp)

/-- `Storage.get_observable`: polymorphic lookup.  The Python body tests
`if not identifier`, so an absent or empty identifier falls back to the
composite of `sha256` and `observable_type` (an f-string rendering `None`
for an absent argument). -/
def get_observable (s : RedisState) (sha256 observable_type identifier : Option String) :
    Record :=
  let ident :=
    match identifier with
    | some i => if i = "" then pyStr sha256 ++ "-" ++ pyStr observable_type else i
    | none => pyStr sha256 ++ "-" ++ pyStr observable_type
  hgetall s ("observables:" ++ ident)

/-- `Storage.get_task_observables`: resolve each identifier of the
per-task membership set, keeping only non-empty records. -/
def get_task_observables (s : RedisState) (task_uuid : String) : List Record :=
  ((smembers s (task_uuid ++ ":observables")).map
      (fun identifier => get_observable s none none (some identifier))).filter
    (fun r => !r.isEmpty)

/-- `Storage.add_task_observable`. -/
def add_task_observable (s : RedisState) (task_uuid sha256 observable_type : String) :
    RedisState :=
  sadd s (task_uuid ++ ":observables") (sha256 ++ "-" ++ observable_type)

/-- `Storage.get_suspicious_observables`. -/
def get_suspicious_observables (s : RedisState) : Record :=
  hgetall s "suspicious_observables"

/-- `Storage.add_suspicious_observable`. -/
def add_suspicious_observable (s : RedisState) (observable observable_type : String) :
    RedisState :=
  hset s "suspicious_observables" (pyStrip observable) (pyStrip observable_type)

/-- `Storage.delete_suspicious_observable`. -/
def delete_suspicious_observable (s : RedisState) (observable : String) : RedisState :=
  hdel s "suspicious_observables" (pyStrip observable)

/-- `Storage.get_legitimate_observables`. -/
def get_legitimate_observables (s : RedisState) : Record :=
  hgetall s "legitimate_observables"

/-- `Storage.add_legitimate_observable`. -/
def add_legitimate_observable (s : RedisState) (observable observable_type : String) :
    RedisState :=
  hset s "legitimate_observables" (pyStrip observable) (pyStrip observable_type)

/-- `Storage.delete_legitimate_observable`. -/
def delete_legitimate_observable (s : RedisState) (observable : String) : RedisState :=
  hdel s "legitimate_observables" (pyStrip observable)

/-- `Storage.get_file`. -/
def get_file (s : RedisState) (file_id : String) : Record :=
  hgetall s ("files:" ++ file_id)

/-- `Storage.set_file`. -/
def set_file (file_details : Record) (s : RedisState) : Except String RedisState :=
  match pyGet file_details "uuid" with
  | .error e => .error e
  | .ok uuid => .ok (sadd (hmset s ("files:" ++ uuid) file_details) "files" uuid)

/-- `Storage.get_files`. -/
def get_files (s : RedisState) : List Record :=
  (smembers s "files").map (get_file s)

/-- `Storage.get_task`. -/
def get_task (s : RedisState) (task_id : String) : Record :=
  hgetall s ("tasks:" ++ task_id)

/-- `Storage.set_task`. -/
def set_task (task : Record) (s : RedisState) : Except String RedisState :=
  match pyGet task "save_date" with
  | .error e => .error e
  | .ok saveDate =>
    match fromisoformat saveDate with
    | none => .error "ValueError: Invalid isoformat string"
    | some timestamp =>
      match pyGet task "uuid" with
      | .error e => .error e
      | .ok uuid => .ok (zadd (hmset s ("tasks:" ++ uuid) task) "tasks" uuid timestamp)

/-- `Storage.get_tasks`: range query over the ordered index, each member
resolved (with no emptiness check), then sorted by `save_date`
descending. -/
def get_tasks (s : RedisState) (first_date last_date : ZBound) :
    Except String (List Record) :=
  pySortByFieldDesc "save_date"
    ((zrevrangebyscore s "tasks" first_date last_date).map (get_task s))

/-- `Storage.count_tasks`. -/
def count_tasks (s : RedisState) (first_date last_date : ZBound) : Nat :=
  zcount s "tasks" first_date last_date

/-- `Storage.add_extracted_reference`. -/
def add_extracted_reference (s : RedisState) (parent_task_uuid extracted_task_uuid : String) :
    RedisState :=
  sadd s ("tasks:" ++ parent_task_uuid ++ ":extracted") extracted_task_uuid

/-- `Storage.get_extracted_references`. -/
def get_extracted_references (s : RedisState) (task_id : String) : List String :=
  smembers s ("tasks:" ++ task_id ++ ":extracted")

/-- `Storage.get_report`. -/
def get_report (s : RedisState) (task_uuid worker_name : String) : Record :=
  hgetall s ("reports:" ++ task_uuid ++ "-" ++ worker_name)

/-- `Storage.set_report`: write the report under its composite key, then
drop the cached `status` field of the parent task. -/
def set_report (report : Record) (s : RedisState) : Except String RedisState :=
  match pyGet report "task_uuid" with
  | .error e => .error e
  | .ok tu =>
    match pyGet report "worker_name" with
    | .error e => .error e
    | .ok wn =>
      let s1 := hmset s ("reports:" ++ tu ++ "-" ++ wn) report
      .ok (hdel s1 ("tasks:" ++ tu) "status")

instance {ε α : Type} [DecidableEq ε] [DecidableEq α] : DecidableEq (Except ε α)
  | .error a, .error b => by
    cases decEq a b with
    | isTrue h => exact isTrue (by rw [h])
    | isFalse h => exact isFalse (by intro hh; cases hh; exact h rfl)
  | .error _, .ok _ => isFalse (by intro hh; cases hh)
  | .ok _, .error _ => isFalse (by intro hh; cases hh)
  | .ok a, .ok b => by
    cases decEq a b with
    | isTrue h => exact isTrue (by rw [h])
    | isFalse h => exact isFalse (by intro hh; cases hh; exact h rfl)

/-! ### Lemmas about the store primitives -/

theorem rget_assocSet {α : Type} (r : List (String × α)) (k k' : String) (v : α) :
    rget (assocSet r k v) k' = if k' = k then some v else rget r k' := by
  induction r with
  | nil => simp [assocSet, rget]
  | cons kv rest ih =>
    obtain ⟨k0, v0⟩ := kv
    by_cases h : k0 = k
    · subst h
      by_cases h2 : k' = k0 <;> simp [assocSet, rget, h2]
    · by_cases h2 : k' = k0
      · subst h2
        simp [assocSet, rget, h, fun hh : k' = k => h (hh ▸ rfl)]
      · simp [assocSet, rget, h, h2, ih]

theorem assocSet_assocSet {α : Type} (r : List (String × α)) (k : String) (v w : α) :
    assocSet (assocSet r k v) k w = assocSet r k w := by
  induction r with
  | nil => simp [assocSet]
  | cons kv rest ih =>
    obtain ⟨k0, v0⟩ := kv
    by_cases h : k0 = k <;> simp [assocSet, h, ih]

theorem rget_eq_none_iff {α : Type} (l : List (String × α)) (k : String) :
    rget l k = none ↔ ∀ p ∈ l, p.1 ≠ k := by
  induction l with
  | nil => simp [rget]
  | cons kv rest ih =>
    obtain ⟨k0, v0⟩ := kv
    by_cases h : k = k0
    · subst h
      simp [rget]
    · simp only [rget, if_neg h, ih]
      constructor
      · intro hall p hp
        rcases List.mem_cons.mp hp with hp | hp
        · rw [hp]
          exact fun hh => h (hh ▸ rfl)
        · exact hall p hp
      · intro hall p hp
        exact hall p (List.mem_cons_of_mem _ hp)


theorem rget_applyFields_not_mem (r0 fields : Record) (k : String)
    (h : ∀ p ∈ fields, p.1 ≠ k) :
    rget (applyFields r0 fields) k = rget r0 k := by
  induction fields generalizing r0 with
  | nil => rfl
  | cons kv rest ih =>
    have hk : kv.1 ≠ k := h kv (List.mem_cons_self kv rest)
    have h' : ∀ p ∈ rest, p.1 ≠ k := fun p hp => h p (List.mem_cons_of_mem _ hp)
    show rget (applyFields (assocSet r0 kv.1 kv.2) rest) k = rget r0 k
    rw [ih _ h', rget_assocSet, if_neg (fun hh : k = kv.1 => hk (hh ▸ rfl))]

theorem applyFields_cons (r0 : Record) (kv : String × String) (rest : Record) :
    applyFields r0 (kv :: rest) = applyFields (assocSet r0 kv.1 kv.2) rest := rfl

theorem rget_applyFields_nodup (r0 fields : Record) (k : String) (v : String)
    (hnd : (fields.map Prod.fst).Nodup) (hv : rget fields k = some v) :
    rget (applyFields r0 fields) k = some v := by
  induction fields generalizing r0 with
  | nil => simp [rget] at hv
  | cons kv rest ih =>
    obtain ⟨k0, v0⟩ := kv
    simp only [List.map_cons, List.nodup_cons] at hnd
    rw [applyFields_cons]
    by_cases h : k = k0
    · subst h
      simp only [rget, if_pos rfl] at hv
      rw [rget_applyFields_not_mem _ _ _
          (fun p hp hpk => hnd.1 (by rw [← hpk]; exact List.mem_map_of_mem Prod.fst hp))]
      rw [rget_assocSet, if_pos rfl]
      exact hv
    · simp only [rget, if_neg h] at hv
      exact ih _ hnd.2 hv

theorem rget_filter_self (r : Record) (f : String) :
    rget (r.filter (fun kv => kv.1 != f)) f = none := by
  induction r with
  | nil => rfl
  | cons kv rest ih =>
    rw [List.filter_cons]
    by_cases h : (kv.1 != f) = true
    · rw [if_pos h]
      have hne : ¬ f = kv.1 := fun hh => bne_iff_ne.mp h (hh ▸ rfl)
      simp only [rget, if_neg hne]
      exact ih
    · rw [if_neg h]
      exact ih

theorem rget_filter_other (r : Record) (f k : String) (h : k ≠ f) :
    rget (r.filter (fun kv => kv.1 != f)) k = rget r k := by
  induction r with
  | nil => rfl
  | cons kv rest ih =>
    rw [List.filter_cons]
    by_cases hf : (kv.1 != f) = true
    · rw [if_pos hf]
      by_cases hk : k = kv.1 <;> simp [rget, hk, ih]
    · rw [if_neg hf]
      have hkv : kv.1 = f := by
        by_contra hc
        exact hf (bne_iff_ne.mpr hc)
      have hk : ¬ k = kv.1 := fun hh => h (hkv ▸ hh)
      rw [ih]
      simp [rget, hk]

theorem map_fst_assocSet {α : Type} (l : List (String × α)) (k : String) (v : α) :
    (assocSet l k v).map Prod.fst =
      if k ∈ l.map Prod.fst then l.map Prod.fst else l.map Prod.fst ++ [k] := by
  induction l with
  | nil => simp [assocSet]
  | cons kv rest ih =>
    obtain ⟨k0, v0⟩ := kv
    by_cases h : k0 = k
    · subst h
      simp [assocSet]
    · have h2 : ¬ k = k0 := fun hh => h (hh ▸ rfl)
      by_cases hm : k ∈ rest.map Prod.fst <;>
        simp [assocSet, h, h2, hm, ih]

/-- Reading a hash key just written by HMSET. -/
theorem hgetall_hmset_self (s : RedisState) (key : String) (fields : Record) :
    hgetall (hmset s key fields) key = applyFields (hgetall s key) fields := by
  simp [hgetall, hmset, rget_assocSet]

/-- HMSET leaves every other hash key alone. -/
theorem hgetall_hmset_other (s : RedisState) (key key' : String) (fields : Record)
    (h : key' ≠ key) :
    hgetall (hmset s key fields) key' = hgetall s key' := by
  simp [hgetall, hmset, rget_assocSet, h]

/-- Reading a hash key whose field was just removed by HDEL. -/
theorem hgetall_hdel_self (s : RedisState) (key field : String) :
    hgetall (hdel s key field) key = (hgetall s key).filter (fun kv => kv.1 != field) := by
  simp [hgetall, hdel, rget_assocSet]

/-- HDEL leaves every other hash key alone. -/
theorem hgetall_hdel_other (s : RedisState) (key key' field : String) (h : key' ≠ key) :
    hgetall (hdel s key field) key' = hgetall s key' := by
  simp [hgetall, hdel, rget_assocSet, h]

theorem hgetall_sadd (s : RedisState) (key member key' : String) :
    hgetall (sadd s key member) key' = hgetall s key' := rfl

theorem hgetall_srem (s : RedisState) (key : String) (ms : List String) (key' : String) :
    hgetall (srem s key ms) key' = hgetall s key' := rfl

theorem hgetall_expire (s : RedisState) (key : String) (sec : Int) (key' : String) :
    hgetall (expire s key sec) key' = hgetall s key' := rfl

theorem hgetall_zadd (s : RedisState) (key member : String) (score : Int) (key' : String) :
    hgetall (zadd s key member score) key' = hgetall s key' := rfl

theorem smembers_hmset (s : RedisState) (key : String) (fields : Record) (key' : String) :
    smembers (hmset s key fields) key' = smembers s key' := rfl

theorem smembers_hdel (s : RedisState) (key field key' : String) :
    smembers (hdel s key field) key' = smembers s key' := rfl

theorem smembers_expire (s : RedisState) (key : String) (sec : Int) (key' : String) :
    smembers (expire s key sec) key' = smembers s key' := rfl

theorem smembers_zadd (s : RedisState) (key member : String) (score : Int) (key' : String) :
    smembers (zadd s key member score) key' = smembers s key' := rfl

/-- Reading the set just pruned by SREM. -/
theorem smembers_srem_self (s : RedisState) (key : String) (ms : List String) :
    smembers (srem s key ms) key = (smembers s key).filter (fun m => !(ms.contains m)) := by
  simp [smembers, srem, rget_assocSet]

/-! ### Lemmas about the Python-level helpers -/

theorem pySort_ok (k : String) (rs l : List Record)
    (h : pySortByFieldDesc k rs = .ok l) :
    l = List.insertionSort (fieldLeDesc k) rs := by
  unfold pySortByFieldDesc at h
  split at h
  · cases h
    rfl
  · cases h

theorem pySort_ok_sorted (k : String) (rs l : List Record)
    (h : pySortByFieldDesc k rs = .ok l) :
    l.Pairwise (fieldLeDesc k) := by
  rw [pySort_ok k rs l h]
  exact List.sorted_insertionSort (fieldLeDesc k) rs

theorem pySort_ok_length (k : String) (rs l : List Record)
    (h : pySortByFieldDesc k rs = .ok l) :
    l.length = rs.length := by
  rw [pySort_ok k rs l h]
  exact List.length_insertionSort (fieldLeDesc k) rs

theorem pySort_ok_mem (k : String) (rs l : List Record) (r : Record)
    (h : pySortByFieldDesc k rs = .ok l) :
    r ∈ l ↔ r ∈ rs := by
  rw [pySort_ok k rs l h]
  exact List.mem_insertionSort (fieldLeDesc k)

theorem pySort_ok_of_all (k : String) (rs : List Record)
    (hall : rs.all (fun r => (rget r k).isSome) = true) :
    pySortByFieldDesc k rs = .ok (List.insertionSort (fieldLeDesc k) rs) := by
  unfold pySortByFieldDesc
  rw [if_pos hall]

theorem pySort_error_of_missing (k : String) (rs : List Record) (r : Record)
    (hr : r ∈ rs) (hk : rget r k = none) :
    pySortByFieldDesc k rs = .error ("KeyError: " ++ k) := by
  unfold pySortByFieldDesc
  rw [if_neg]
  intro hall
  rw [List.all_eq_true] at hall
  have := hall r hr
  rw [hk] at this
  simp at this

/-- Every record collected by the loop of `get_users` was either already
in the accumulator or is a non-empty record of one of the visited
session ids. -/
theorem usersLoop_fst_mem (st : RedisState) :
    ∀ (sids : List String) (users : List Record) (to_pop : List String) (r : Record),
      r ∈ (usersLoop st sids users to_pop).1 →
      r ∈ users ∨ ∃ sid ∈ sids, r = hgetall st ("users:" ++ sid) ∧ r ≠ []
  | [], _, _, r, h => Or.inl h
  | sid :: rest, users, to_pop, r, h => by
    simp only [usersLoop] at h
    by_cases hc : hgetall st ("users:" ++ sid) ≠ []
    · rw [if_pos hc] at h
      rcases usersLoop_fst_mem st rest _ _ r h with hmem | ⟨sid', hs, he, hne⟩
      · rcases List.mem_append.mp hmem with h1 | h1
        · exact Or.inl h1
        · right
          exact ⟨sid, List.mem_cons_self _ _, List.mem_singleton.mp h1,
            (List.mem_singleton.mp h1) ▸ hc⟩
      · right
        exact ⟨sid', List.mem_cons_of_mem _ hs, he, hne⟩
    · rw [if_neg hc] at h
      rcases usersLoop_fst_mem st rest _ _ r h with hmem | ⟨sid', hs, he, hne⟩
      · exact Or.inl hmem
      · right
        exact ⟨sid', List.mem_cons_of_mem _ hs, he, hne⟩

/-- A session id whose record is gone ends up in the prune list of the
loop of `get_users`. -/
theorem usersLoop_snd_mem (st : RedisState) :
    ∀ (sids : List String) (users : List Record) (to_pop : List String) (sid : String),
      sid ∈ to_pop ∨ (sid ∈ sids ∧ hgetall st ("users:" ++ sid) = []) →
      sid ∈ (usersLoop st sids users to_pop).2
  | [], _, _, sid, h => by
    rcases h with h | ⟨hs, _⟩
    · exact h
    · cases hs
  | sid0 :: rest, users, to_pop, sid, h => by
    simp only [usersLoop]
    by_cases hc : hgetall st ("users:" ++ sid0) ≠ []
    · rw [if_pos hc]
      apply usersLoop_snd_mem st rest _ _ sid
      rcases h with h | ⟨hs, hemp⟩
      · exact Or.inl h
      · rcases List.mem_cons.mp hs with rfl | hs'
        · exact absurd hemp hc
        · exact Or.inr ⟨hs', hemp⟩
    · rw [if_neg hc]
      apply usersLoop_snd_mem st rest _ _ sid
      rcases h with h | ⟨hs, hemp⟩
      · exact Or.inl (List.mem_append.mpr (Or.inl h))
      · rcases List.mem_cons.mp hs with rfl | hs'
        · exact Or.inl (List.mem_append.mpr (Or.inr (List.mem_singleton.mpr rfl)))
        · exact Or.inr ⟨hs', hemp⟩

/-- A task record key never collides with a report record key. -/
theorem tasks_key_ne_reports_key (t r : String) : "tasks:" ++ t ≠ "reports:" ++ r := by
  intro h
  have h2 : ("tasks:" ++ t).data = ("reports:" ++ r).data := by rw [h]
  rw [String.data_append, String.data_append] at h2
  simp at h2

/-! ### The claims -/

/-- C9: composite lookup equivalence.  For all strings `S` and `Ty`, looking
an observable up by the two discrete fields and looking it up by the
precomposed identifier `S ++ "-" ++ Ty` read the same hash key, hence
return identical records on every store state. -/
theorem C9_composite_lookup_equivalence (s : RedisState) (sha ty : String) :
    get_observable s (some sha) (some ty) none =
      get_observable s none none (some (sha ++ "-" ++ ty)) := by
  have hne : sha ++ "-" ++ ty ≠ "" := by
    intro h
    have h2 : (sha ++ "-" ++ ty).data = ("" : String).data := by rw [h]
    rw [String.data_append, String.data_append] at h2
    simp at h2
  simp only [get_observable, if_neg hne, pyStr]

/-- C8: a record whose timestamp field (`last_seen` for `set_observable`,
`save_date` for `set_task`) is not a parseable ISO-8601 date string makes
the set operation fail with the parsing error; the parse is the first
step of both methods, before any write, so the store is untouched (an
`Except.error` result carries no successor state). -/
theorem C8_malformed_timestamp_fails_fast (s : RedisState) (obs task : Record)
    (d1 d2 : String)
    (hobs : rget obs "last_seen" = some d1) (hbad1 : fromisoformat d1 = none)
    (htask : rget task "save_date" = some d2) (hbad2 : fromisoformat d2 = none) :
    set_observable obs s = .error "ValueError: Invalid isoformat string" ∧
    set_task task s = .error "ValueError: Invalid isoformat string" := by
  constructor
  · simp [set_observable, pyGet, hobs, hbad1]
  · simp [set_task, pyGet, htask, hbad2]

theorem C8_witness :
    set_observable [("last_seen", "soon")] emptyState =
        .error "ValueError: Invalid isoformat string" ∧
    set_task [("save_date", "soon")] emptyState =
        .error "ValueError: Invalid isoformat string" :=
  C8_malformed_timestamp_fails_fast emptyState [("last_seen", "soon")]
    [("save_date", "soon")] "soon" "soon" (by decide) (by decide) (by decide) (by decide)

/-- C4: range consistency.  Whenever `get_tasks` returns a list for some
bounds, `count_tasks` on the same bounds equals its length: both walk the
same score-filtered slice of the `tasks` ordered index, and `get_tasks`
resolves every member without dropping any. -/
theorem C4_range_consistency (s : RedisState) (a b : ZBound) (l : List Record)
    (h : get_tasks s a b = .ok l) :
    count_tasks s a b = l.length := by
  unfold get_tasks at h
  rw [pySort_ok _ _ _ h, List.length_insertionSort, List.length_map,
    zrevrangebyscore, List.length_map, List.length_insertionSort]
  rfl

def stC4 : RedisState :=
  ⟨[("tasks:u", [("save_date", "2024-01-02")])], [], [("tasks", [("u", 5)])], []⟩

theorem C4_witness : count_tasks stC4 ZBound.negInf ZBound.posInf = 1 :=
  C4_range_consistency stC4 ZBound.negInf ZBound.posInf
    [[("save_date", "2024-01-02")]] (by decide)

def stC2 : RedisState :=
  ⟨[("users:s", [("session_id", "s"), ("api_key", "x")])], [("users", ["s"])], [],
    [("users:s", 3600)]⟩

/-- C2 as stated is false: the write primitive sets the supplied fields of
the existing hash and leaves other fields intact, so after
`set_user(r1); set_user(r2)` a field of `r1` absent from `r2` survives and
the stored record differs from `r2`. -/
theorem C2_counterexample :
    ∃ s1 s2 : RedisState,
      set_user ⟨3600⟩ [("session_id", "s"), ("api_key", "x")] emptyState = .ok s1 ∧
      set_user ⟨3600⟩ [("session_id", "s")] s1 = .ok s2 ∧
      get_user s2 "s" ≠ [("session_id", "s")] ∧
      rget (get_user s2 "s") "api_key" = some "x" := by
  refine ⟨stC2, stC2, ?_, ?_, ?_, ?_⟩ <;> decide

/-- C2 amended: `set_user(r2)` after `set_user(r1)` for the same session
id performs a field-level merge, not a record replacement.  Every field
of `r2` ends up with the value `r2` gives it, and every field of `r1`
absent from `r2` keeps the value `r1` gave it. -/
theorem C2_set_user_merges (cfg : Config) (s s1 s2 : RedisState) (sid : String)
    (r1 r2 : Record)
    (hs1 : rget r1 "session_id" = some sid) (hs2 : rget r2 "session_id" = some sid)
    (hnd1 : (r1.map Prod.fst).Nodup) (hnd2 : (r2.map Prod.fst).Nodup)
    (e1 : set_user cfg r1 s = .ok s1) (e2 : set_user cfg r2 s1 = .ok s2) :
    (∀ k v, rget r2 k = some v → rget (get_user s2 sid) k = some v) ∧
    (∀ k v, rget r2 k = none → rget r1 k = some v → rget (get_user s2 sid) k = some v) := by
  simp only [set_user, pyGet, hs1] at e1
  simp only [set_user, pyGet, hs2] at e2
  injection e1 with he1
  injection e2 with he2
  have hu : get_user s2 sid =
      applyFields (applyFields (hgetall s ("users:" ++ sid)) r1) r2 := by
    show hgetall s2 ("users:" ++ sid) = _
    rw [← he2, hgetall_sadd, hgetall_expire, hgetall_hmset_self, ← he1,
      hgetall_sadd, hgetall_expire, hgetall_hmset_self]
  constructor
  · intro k v hv
    rw [hu]
    exact rget_applyFields_nodup _ _ _ _ hnd2 hv
  · intro k v hv2 hv1
    rw [hu]
    rw [rget_applyFields_not_mem _ _ _ ((rget_eq_none_iff r2 k).mp hv2)]
    exact rget_applyFields_nodup _ _ _ _ hnd1 hv1

theorem C2_witness :
    rget (get_user stC2 "s") "session_id" = some "s" ∧
    rget (get_user stC2 "s") "api_key" = some "x" := by
  have h := C2_set_user_merges ⟨3600⟩ emptyState stC2 stC2 "s"
    [("session_id", "s"), ("api_key", "x")] [("session_id", "s")]
    (by decide) (by decide) (by decide) (by decide) (by decide) (by decide)
  exact ⟨h.1 "session_id" "s" (by decide), h.2 "api_key" "x" (by decide) (by decide)⟩

/-- A report record key never collides with a task record key. -/
theorem report_key_ne_task_key (tu wn t : String) :
    "reports:" ++ tu ++ "-" ++ wn ≠ "tasks:" ++ t := by
  intro h
  have h2 : ("reports:" ++ tu ++ "-" ++ wn).data = ("tasks:" ++ t).data := by rw [h]
  rw [String.data_append, String.data_append, String.data_append] at h2
  simp at h2

/-- C7: `set_report` stores the report under the composite key
`reports:` task uuid `-` worker name, removes the `status` field from the
parent task record, and leaves every other field of that task record
unchanged. -/
theorem C7_report_clears_task_status (report : Record) (s s' : RedisState) (tu wn : String)
    (h1 : rget report "task_uuid" = some tu) (h2 : rget report "worker_name" = some wn)
    (hnd : (report.map Prod.fst).Nodup)
    (e : set_report report s = .ok s') :
    (∀ k v, rget report k = some v → rget (get_report s' tu wn) k = some v) ∧
    rget (get_task s' tu) "status" = none ∧
    (∀ k, k ≠ "status" → rget (get_task s' tu) k = rget (get_task s tu) k) := by
  simp only [set_report, pyGet, h1, h2] at e
  injection e with he
  subst he
  refine ⟨?_, ?_, ?_⟩
  · intro k v hv
    show rget (hgetall _ ("reports:" ++ tu ++ "-" ++ wn)) k = some v
    rw [hgetall_hdel_other _ _ _ _ (report_key_ne_task_key tu wn tu),
      hgetall_hmset_self]
    exact rget_applyFields_nodup _ _ _ _ hnd hv
  · show rget (hgetall _ ("tasks:" ++ tu)) "status" = none
    rw [hgetall_hdel_self]
    exact rget_filter_self _ _
  · intro k hk
    show rget (hgetall _ ("tasks:" ++ tu)) k = _
    rw [hgetall_hdel_self, rget_filter_other _ _ _ hk,
      hgetall_hmset_other _ _ _ _ (report_key_ne_task_key tu wn tu).symm]
    rfl

def stC7 : RedisState :=
  ⟨[("tasks:T", [("status", "RUNNING"), ("file", "f")])], [], [], []⟩

def stC7' : RedisState :=
  ⟨[("tasks:T", [("file", "f")]),
    ("reports:T-W", [("task_uuid", "T"), ("worker_name", "W"), ("verdict", "ok")])],
    [], [], []⟩

theorem C7_witness :
    rget (get_report stC7' "T" "W") "verdict" = some "ok" ∧
    rget (get_task stC7' "T") "status" = none ∧
    rget (get_task stC7' "T") "file" = rget (get_task stC7 "T") "file" := by
  have h := C7_report_clears_task_status
    [("task_uuid", "T"), ("worker_name", "W"), ("verdict", "ok")] stC7 stC7' "T" "W"
    (by decide) (by decide) (by decide) (by decide)
  exact ⟨h.1 "verdict" "ok" (by decide), h.2.1, h.2.2 "file" (by decide)⟩

def stC3 : RedisState :=
  ⟨[("observables:a-t",
      [("sha256", "a"), ("observable_type", "t"), ("last_seen", "2024-01-02")])],
    [], [("observables", [("a-t", 1704153600)])], []⟩

/-- C3 as stated is false: `set_observable` deletes the legacy
`warninglist` field right after writing, so a record supplied with that
field does not round-trip on it. -/
theorem C3_counterexample :
    set_observable
        [("sha256", "a"), ("observable_type", "t"), ("last_seen", "2024-01-02"),
          ("warninglist", "1")] emptyState = .ok stC3 ∧
    rget [("sha256", "a"), ("observable_type", "t"), ("last_seen", "2024-01-02"),
        ("warninglist", "1")] "warninglist" = some "1" ∧
    rget (get_observable stC3 (some "a") (some "t") none) "warninglist" = none := by
  refine ⟨?_, ?_, ?_⟩ <;> decide

/-- C3 amended: set followed by get returns every supplied field, except
that for observables the legacy `warninglist` field is dropped by
`set_observable` itself.  Stated for the session/user family (all fields
round-trip) and for the observable family (all fields other than
`warninglist` round-trip). -/
theorem C3_roundtrip_amended :
    (∀ (cfg : Config) (s s' : RedisState) (u : Record) (sid : String),
      rget u "session_id" = some sid → (u.map Prod.fst).Nodup →
      set_user cfg u s = .ok s' →
      ∀ k v, rget u k = some v → rget (get_user s' sid) k = some v) ∧
    (∀ (s s' : RedisState) (obs : Record) (sha ty : String),
      rget obs "sha256" = some sha → rget obs "observable_type" = some ty →
      (obs.map Prod.fst).Nodup →
      set_observable obs s = .ok s' →
      ∀ k v, k ≠ "warninglist" → rget obs k = some v →
        rget (get_observable s' (some sha) (some ty) none) k = some v) := by
  constructor
  · intro cfg s s' u sid hsid hnd e k v hv
    simp only [set_user, pyGet, hsid] at e
    injection e with he
    have hu : get_user s' sid = applyFields (hgetall s ("users:" ++ sid)) u := by
      show hgetall s' ("users:" ++ sid) = _
      rw [← he, hgetall_sadd, hgetall_expire, hgetall_hmset_self]
    rw [hu]
    exact rget_applyFields_nodup _ _ _ _ hnd hv
  · intro s s' obs sha ty hsha hty hnd e k v hk hv
    cases hls : rget obs "last_seen" with
    | none => simp [set_observable, pyGet, hls] at e
    | some d =>
      cases hp : fromisoformat d with
      | none => simp [set_observable, pyGet, hls, hp] at e
      | some ts =>
        simp only [set_observable, pyGet, hls, hp, hsha, hty] at e
        injection e with he
        show rget (hgetall s' ("observables:" ++ (sha ++ "-" ++ ty))) k = some v
        rw [← he, hgetall_zadd]
        by_cases hex :
            hexists (hmset s ("observables:" ++ (sha ++ "-" ++ ty)) obs)
              ("observables:" ++ (sha ++ "-" ++ ty)) "warninglist"
        · rw [if_pos hex, hgetall_hdel_self, rget_filter_other _ _ _ hk,
            hgetall_hmset_self]
          exact rget_applyFields_nodup _ _ _ _ hnd hv
        · rw [if_neg hex, hgetall_hmset_self]
          exact rget_applyFields_nodup _ _ _ _ hnd hv

theorem C3_witness :
    rget (get_observable stC3 (some "a") (some "t") none) "sha256" = some "a" :=
  C3_roundtrip_amended.2 emptyState stC3
    [("sha256", "a"), ("observable_type", "t"), ("last_seen", "2024-01-02")] "a" "t"
    (by decide) (by decide) (by decide) (by decide) "sha256" "a" (by decide) (by decide)

/-- C10: the suspicious-observables hash.  A second identical add is a
no-op on the whole store state; after an add the hash holds exactly one
entry for the trimmed value, mapping it to the trimmed type; and a delete
whose argument trims to the same key removes that entry. -/
theorem C10_suspicious_idempotent (s : RedisState) (v t v' : String)
    (hnd : ((hgetall s "suspicious_observables").map Prod.fst).Nodup)
    (hv : pyStrip v' = pyStrip v) :
    add_suspicious_observable (add_suspicious_observable s v t) v t =
        add_suspicious_observable s v t ∧
    ((hgetall (add_suspicious_observable s v t) "suspicious_observables").map
        Prod.fst).count (pyStrip v) = 1 ∧
    rget (hgetall (add_suspicious_observable s v t) "suspicious_observables")
        (pyStrip v) = some (pyStrip t) ∧
    rget (hgetall (delete_suspicious_observable (add_suspicious_observable s v t) v')
        "suspicious_observables") (pyStrip v) = none := by
  have hR1 : hgetall (add_suspicious_observable s v t) "suspicious_observables" =
      assocSet (hgetall s "suspicious_observables") (pyStrip v) (pyStrip t) := by
    show hgetall (hmset s _ _) _ = _
    rw [hgetall_hmset_self]
    rfl
  refine ⟨?_, ?_, ?_, ?_⟩
  · show hmset (add_suspicious_observable s v t) "suspicious_observables"
        [(pyStrip v, pyStrip t)] = add_suspicious_observable s v t
    unfold hmset
    have hfold : applyFields
        (hgetall (add_suspicious_observable s v t) "suspicious_observables")
        [(pyStrip v, pyStrip t)] =
        assocSet (hgetall (add_suspicious_observable s v t) "suspicious_observables")
          (pyStrip v) (pyStrip t) := rfl
    rw [hfold, hR1, assocSet_assocSet]
    show RedisState.mk
        (assocSet (add_suspicious_observable s v t).hashes "suspicious_observables"
          (assocSet (hgetall s "suspicious_observables") (pyStrip v) (pyStrip t))) _ _ _ = _
    have hh : (add_suspicious_observable s v t).hashes =
        assocSet s.hashes "suspicious_observables"
          (assocSet (hgetall s "suspicious_observables") (pyStrip v) (pyStrip t)) := rfl
    rw [hh, assocSet_assocSet]
    rfl
  · rw [hR1, map_fst_assocSet]
    by_cases hm : pyStrip v ∈ (hgetall s "suspicious_observables").map Prod.fst
    · rw [if_pos hm]
      exact List.count_eq_one_of_mem hnd hm
    · rw [if_neg hm, List.count_append]
      rw [List.count_eq_zero_of_not_mem hm]
      simp
  · rw [hR1, rget_assocSet, if_pos rfl]
  · show rget (hgetall (hdel _ "suspicious_observables" (pyStrip v')) _) _ = none
    rw [hgetall_hdel_self, hv]
    exact rget_filter_self _ _

theorem C10_witness :
    rget (hgetall (add_suspicious_observable emptyState " evil.com " "domain")
        "suspicious_observables") "evil.com" = some "domain" := by
  have h := (C10_suspicious_idempotent emptyState " evil.com " "domain" "evil.com "
    (by decide) (by decide)).2.2.1
  rw [show pyStrip " evil.com " = "evil.com" from by decide,
    show pyStrip "domain" = "domain" from by decide] at h
  exact h

/-- C5: listing order.  Whenever `get_users` returns, the records are
sorted by `last_seen` descending; whenever `get_tasks` returns, by
`save_date` descending; and `get_roles` returns records in ascending
order of role name (given that each stored role record carries its
indexed name in its `name` field, which `set_role` guarantees). -/
theorem C5_listing_order :
    (∀ (s : RedisState) (l : List Record), (get_users s).2 = .ok l →
      l.Pairwise (fun r1 r2 => strAsc (fieldD r2 "last_seen") (fieldD r1 "last_seen"))) ∧
    (∀ (s : RedisState) (a b : ZBound) (l : List Record), get_tasks s a b = .ok l →
      l.Pairwise (fun r1 r2 => strAsc (fieldD r2 "save_date") (fieldD r1 "save_date"))) ∧
    (∀ s : RedisState,
      (∀ n ∈ smembers s "roles", rget (get_role s n) "name" = some n) →
      (get_roles s).Pairwise (fun r1 r2 => strAsc (fieldD r1 "name") (fieldD r2 "name"))) := by
  refine ⟨?_, ?_, ?_⟩
  · intro s l h
    exact pySort_ok_sorted _ _ _ h
  · intro s a b l h
    exact pySort_ok_sorted _ _ _ h
  · intro s hname
    have hsorted : (List.insertionSort strAsc (smembers s "roles")).Pairwise strAsc :=
      List.sorted_insertionSort strAsc _
    unfold get_roles
    rw [List.pairwise_map]
    refine hsorted.imp_of_mem ?_
    intro a b ha hb hab
    have hfa : fieldD (get_role s a) "name" = a := by
      rw [fieldD, hname a ((List.mem_insertionSort strAsc).mp ha)]
      rfl
    have hfb : fieldD (get_role s b) "name" = b := by
      rw [fieldD, hname b ((List.mem_insertionSort strAsc).mp hb)]
      rfl
    rw [hfa, hfb]
    exact hab

def stC5 : RedisState :=
  ⟨[("users:s1", [("last_seen", "2024-01-05")]),
    ("users:s2", [("last_seen", "2024-01-07")]),
    ("tasks:u1", [("save_date", "2024-02-01")]),
    ("tasks:u2", [("save_date", "2024-03-01")]),
    ("roles:admin", [("name", "admin")]),
    ("roles:reader", [("name", "reader")])],
    [("users", ["s1", "s2"]), ("roles", ["reader", "admin"])],
    [("tasks", [("u1", 10), ("u2", 20)])], []⟩

theorem C5_witness :
    ([[("last_seen", "2024-01-07")], [("last_seen", "2024-01-05")]].Pairwise
      (fun r1 r2 : Record =>
        strAsc (fieldD r2 "last_seen") (fieldD r1 "last_seen"))) ∧
    ([[("save_date", "2024-03-01")], [("save_date", "2024-02-01")]].Pairwise
      (fun r1 r2 : Record =>
        strAsc (fieldD r2 "save_date") (fieldD r1 "save_date"))) ∧
    ((get_roles stC5).Pairwise
      (fun r1 r2 : Record => strAsc (fieldD r1 "name") (fieldD r2 "name"))) :=
  ⟨C5_listing_order.1 stC5 _ (by decide),
   C5_listing_order.2.1 stC5 ZBound.negInf ZBound.posInf _ (by decide),
   C5_listing_order.2.2 stC5 (by decide)⟩

/-- C6: self-healing.  For a session id in the `users` membership set
whose record is missing, `get_users` prunes the id from the membership
set (even when the later sort raises), and any list it returns contains
only non-empty records, so the dangling id contributes nothing. -/
theorem C6_self_healing (s : RedisState) (sid : String)
    (hmem : sid ∈ smembers s "users")
    (hexp : hgetall s ("users:" ++ sid) = []) :
    sid ∉ smembers (get_users s).1 "users" ∧
    ∀ l, (get_users s).2 = .ok l → [] ∉ l := by
  have hpop : sid ∈ (usersLoop s (smembers s "users") [] []).2 :=
    usersLoop_snd_mem s _ [] [] sid (Or.inr ⟨hmem, hexp⟩)
  constructor
  · intro hin
    have h1 : (get_users s).1 = srem s "users" (usersLoop s (smembers s "users") [] []).2 := by
      show (if (usersLoop s (smembers s "users") [] []).2 ≠ [] then _ else _) = _
      rw [if_pos (List.ne_nil_of_mem hpop)]
    rw [h1, smembers_srem_self] at hin
    have hn := (List.mem_filter.mp hin).2
    rw [Bool.not_eq_true'] at hn
    have hc : ((usersLoop s (smembers s "users") [] []).2.contains sid) = true :=
      List.elem_iff.mpr hpop
    rw [hn] at hc
    cases hc
  · intro l hl hmem0
    have h0 := (pySort_ok_mem "last_seen" _ _ [] hl).mp hmem0
    rcases usersLoop_fst_mem s _ _ _ [] h0 with h1 | ⟨_, _, _, hne⟩
    · cases h1
    · exact hne rfl

def stC6 : RedisState :=
  ⟨[("users:s1", [("last_seen", "2024-01-02")])], [("users", ["s1", "gone"])], [], []⟩

theorem C6_witness :
    "gone" ∉ smembers (get_users stC6).1 "users" ∧
    ∀ l, (get_users stC6).2 = .ok l → [] ∉ l :=
  C6_self_healing stC6 "gone" (by decide) (by decide)

def stC1 : RedisState := ⟨[], [], [("tasks", [("u1", 0)])], []⟩

/-- C1 as stated is false for `get_tasks`: on a store whose `tasks`
ordered index holds an identifier with no backing record, `get_tasks`
appends the empty record without any check and the subsequent sort key
lookup raises a `KeyError`, rather than treating the identifier as
absent. -/
theorem C1_counterexample :
    "u1" ∈ zrevrangebyscore stC1 "tasks" ZBound.negInf ZBound.posInf ∧
    hgetall stC1 ("tasks:" ++ "u1") = [] ∧
    get_tasks stC1 ZBound.negInf ZBound.posInf = .error "KeyError: save_date" := by
  refine ⟨?_, ?_, ?_⟩ <;> decide

/-- C1 amended: `get_task_observables` always returns normally and skips
dangling identifiers; `get_users` returns normally and excludes dangling
ids provided every surviving record has a `last_seen` field; but
`get_tasks` raises a `KeyError` whenever the `tasks` ordered index holds
an identifier with no backing record in the requested range. -/
theorem C1_reader_resilience_amended :
    (∀ (s : RedisState) (u : String), [] ∉ get_task_observables s u) ∧
    (∀ s : RedisState,
      (∀ sid ∈ smembers s "users",
        hgetall s ("users:" ++ sid) ≠ [] →
          rget (hgetall s ("users:" ++ sid)) "last_seen" ≠ none) →
      ∃ l, (get_users s).2 = .ok l ∧ [] ∉ l) ∧
    (∀ (s : RedisState) (a b : ZBound) (uuid : String),
      uuid ∈ zrevrangebyscore s "tasks" a b → hgetall s ("tasks:" ++ uuid) = [] →
      get_tasks s a b = .error "KeyError: save_date") := by
  refine ⟨?_, ?_, ?_⟩
  · intro s u h
    have h2 := (List.mem_filter.mp h).2
    simp at h2
  · intro s hfield
    have hall : (usersLoop s (smembers s "users") [] []).1.all
        (fun r => (rget r "last_seen").isSome) = true := by
      rw [List.all_eq_true]
      intro r hr
      rcases usersLoop_fst_mem s _ _ _ r hr with h0 | ⟨sid, hsid, heq, hne⟩
      · cases h0
      · have hp := hfield sid hsid (by rw [← heq]; exact hne)
        rw [heq]
        cases hx : rget (hgetall s ("users:" ++ sid)) "last_seen" with
        | none => exact absurd hx hp
        | some d => simp [hx]
    refine ⟨List.insertionSort (fieldLeDesc "last_seen")
      (usersLoop s (smembers s "users") [] []).1, ?_, ?_⟩
    · exact pySort_ok_of_all _ _ hall
    · intro hmem
      rcases usersLoop_fst_mem s _ _ _ []
          ((List.mem_insertionSort (fieldLeDesc "last_seen")).mp hmem) with
        h0 | ⟨_, _, _, hne⟩
      · cases h0
      · exact hne rfl
  · intro s a b uuid hmem hempty
    unfold get_tasks
    apply pySort_error_of_missing "save_date" _ []
    · exact List.mem_map.mpr ⟨uuid, hmem, hempty⟩
    · rfl

def stC1u : RedisState :=
  ⟨[("users:a", [("last_seen", "2024-01-02")])], [("users", ["a", "zz"])], [], []⟩

theorem C1_witness :
    [] ∉ get_task_observables emptyState "t" ∧
    (∃ l, (get_users stC1u).2 = .ok l ∧ [] ∉ l) ∧
    get_tasks stC1 ZBound.negInf ZBound.posInf = .error "KeyError: save_date" :=
  ⟨C1_reader_resilience_amended.1 emptyState "t",
   C1_reader_resilience_amended.2.1 stC1u (by decide),
   C1_reader_resilience_amended.2.2 stC1 ZBound.negInf ZBound.posInf "u1"
     (by decide) (by decide)⟩
